import Mathlib

/-!
Shallow embedding of `tutorials/cloud-functions-github-auto-deployer/auto-deployer/index.js`.

The program is a webhook-triggered deployment pipeline:
validate signature → match deployments → download repo → zip → upload → deploy → poll.
External collaborators (HMAC, JSON serialization, git download, zip, storage upload,
cloud-functions API) are modelled as parameters / oracle outcomes; the control flow,
string formatting and error funneling are embedded faithfully from the source.
-/

deriving instance DecidableEq for Except

namespace AutoDeployer

/-- Rendering of a possibly-`undefined` JavaScript string into a template literal:
`undefined` prints as the string "undefined". -/
def jsToString : Option String → String
  | some s => s
  | none => "undefined"

/-- A JavaScript `Error` as this program uses it: a message plus the optional
`statusCode` property some errors carry (`validateRequest` sets it to 403). -/
structure Err where
  message : String
  statusCode : Option Nat
  deriving Repr, DecidableEq

/-- The `repository.owner` object of the webhook body; its `name` property may be absent. -/
structure OwnerObj where
  name : Option String
  deriving Repr, DecidableEq

/-- The `repository` object of the webhook body; `owner` or `name` may be absent. -/
structure RepositoryObj where
  owner : Option OwnerObj
  name : Option String
  deriving Repr, DecidableEq

/-- The parsed JSON request body as far as the handler reads it: the `repository`
field may itself be absent. -/
structure Body where
  repository : Option RepositoryObj
  deriving Repr, DecidableEq

/-- An incoming request: parsed body plus the raw value of the
x-hub-signature header (absent headers are `none`). -/
structure Request where
  body : Body
  xHubSignature : Option String
  deriving Repr, DecidableEq

/-- One entry of `config.deployments`. -/
structure Deployment where
  repository : String
  path : String
  functionName : String
  deriving Repr, DecidableEq

/-- The static configuration loaded from config2.json. -/
structure Config where
  stageBucket : String
  location : String
  secretToken : String
  deployments : List Deployment
  deriving Repr, DecidableEq

/-- Embeds `validateRequest` (index.js 210-226): computes the hex HMAC-SHA1 of
`JSON.stringify(req.body)` keyed with the secret token and compares the
x-hub-signature header with the string `sha1=` followed by the digest, via
JavaScript `!==` (an absent header compares unequal to any string). On mismatch
it throws an Error with message "Unauthorized" and `statusCode` 403.
The HMAC primitive and the JSON serializer are external collaborators, passed in
as opaque functions. -/
def validateRequest (hmacSha1Hex : String → String → String)
    (jsonStringify : Body → String)
    (secretToken : String) (req : Request) : Except Err Unit :=
  let digest := hmacSha1Hex secretToken (jsonStringify req.body)
  if req.xHubSignature ≠ some ("sha1=" ++ digest) then
    .error { message := "Unauthorized", statusCode := some 403 }
  else
    .ok ()

/-- Embeds `getCurrentDeployments` (index.js 191-202): filters the configured
deployments by strict string equality of the `repository` field and throws
an Error with the descriptive message when the filtered list is empty
(the thrown Error carries no `statusCode` property). -/
def getCurrentDeployments (deployments : List Deployment) (repository : String) :
    Except Err (List Deployment) :=
  let current := deployments.filter (fun d => d.repository == repository)
  if current.isEmpty then
    .error { message := "No matching deployments for " ++ repository ++ ".", statusCode := none }
  else
    .ok current

/-- The archive path `zipDir` builds (index.js 47) from the string returned by
randomstring.generate(13). -/
def zipArchivePath (token : String) : String :=
  "/tmp/" ++ token ++ ".zip"

/-- Embeds `zipDir` (index.js 44-59): generates the archive path from the random
token, then resolves that path when the zip collaborator succeeds and rejects
with the collaborator's error otherwise. The token and the collaborator outcome
are inputs of the model. -/
def zipDir (token : String) (zipOutcome : Except Err Unit) (_directory : String) :
    Except Err String :=
  match zipOutcome with
  | .error e => .error e
  | .ok _ => .ok (zipArchivePath token)

/-- The local filesystem as the set of paths that currently exist, modelled as a list. -/
abbrev FileSystem := List String

/-- Embeds `fs.unlinkSync` on a possibly-`undefined` argument: called on
`undefined` it throws a TypeError; called on a path that does not exist it
throws ENOENT; otherwise it removes the path. -/
def unlinkSync (fs : FileSystem) : Option String → Except Unit FileSystem
  | none => .error ()
  | some p => if p ∈ fs then .ok (fs.erase p) else .error ()

/-- Embeds the inner `cleanup` of `uploadArchive` (index.js 81-88): tries
`fs.unlinkSync(archive)` on its own parameter and swallows any error. -/
def cleanup (fs : FileSystem) (archive : Option String) : FileSystem :=
  match unlinkSync fs archive with
  | .ok fs2 => fs2
  | .error _ => fs

/-- Embeds `uploadArchive` (index.js 66-89). The source declares
`function cleanup (archive)` but invokes it as `cleanup()` with no argument at
both call sites, so the parameter shadows the outer `archive` and is
`undefined` (`none`) whenever cleanup runs. On upload success the promise
resolves with the archive path; on failure it rejects with the upload error;
cleanup runs in both branches. Returns the settled outcome together with the
filesystem after the call. -/
def uploadArchive (uploadOutcome : Except Err Unit) (fs : FileSystem) (archive : String) :
    Except Err String × FileSystem :=
  match uploadOutcome with
  | .ok _ => (.ok archive, cleanup fs none)
  | .error e => (.error e, cleanup fs none)

/-- The authenticated cloud-functions client handle. -/
structure Client where
  id : Nat
  deriving Repr, DecidableEq

/-- Outcome of one invocation of the authentication collaborator
(google.auth.getApplicationDefault plus the scoping and
google.cloudfunctions wrapping of index.js 99-110). -/
inductive AuthOutcome
  | failure (e : Err)
  | success (c : Client)
  deriving Repr, DecidableEq

/-- Embeds one `getClient` call (index.js 93-114) acting on the module-level
`client` slot: if the slot is set, resolve it without touching the
authentication collaborator; otherwise invoke authentication, and on success
store the new handle in the slot before resolving it. Returns
(settled result, slot after the call, whether authentication was invoked). -/
def getClient (slot : Option Client) (auth : AuthOutcome) :
    Except Err Client × Option Client × Bool :=
  match slot with
  | some c => (.ok c, some c, false)
  | none =>
    match auth with
    | .failure e => (.error e, none, true)
    | .success c => (.ok c, some c, true)

/-- The assignment a finished authentication callback performs on the
module-level `client` slot (index.js 107-111): a successful callback stores
its freshly built handle — overwriting whatever the slot held — while a
failed one rejects without assigning. -/
def authAssign (slot : Option Client) (a : AuthOutcome) : Option Client :=
  match a with
  | .failure _ => slot
  | .success c => some c

/-- A burst of `getClient` calls issued synchronously in one event-loop tick,
before any pending authentication callback has run — exactly what the
per-deployment fan-out of index.js 262-264 does: every call in the burst
observes the same slot value. On a populated slot each call resolves the
cached handle and authentication is not invoked. On an empty slot every call
invokes authentication; `auths` lists each call's outcome in the order the
callbacks later complete, each call resolves with its own outcome, and each
successful callback assigns the slot in turn, the last one winning. Returns
the per-call (result, auth-invoked) pairs and the slot after all callbacks
have run. -/
def getClientBurst (slot : Option Client) (auths : List AuthOutcome) :
    List (Except Err Client × Bool) × Option Client :=
  match slot with
  | some c => (auths.map (fun _ => (.ok c, false)), some c)
  | none =>
    (auths.map (fun a =>
        match a with
        | .failure e => (.error e, true)
        | .success c => (.ok c, true)),
     auths.foldl authAssign none)

/-- A process trace as a list of `getClient` bursts: all calls of one burst
start in the same tick, and every callback of a burst completes before the
next burst begins. A burst of one call is an ordinary sequential call. -/
def runBursts (slot : Option Client) : List (List AuthOutcome) →
    List (List (Except Err Client × Bool)) × Option Client
  | [] => ([], slot)
  | b :: rest =>
    let step := getClientBurst slot b
    let tail := runBursts step.2 rest
    (step.1 :: tail.1, tail.2)

/-- The payload of a completed operation (`_operation.response`); its `name`
property is read in a template literal, which tolerates `undefined`. -/
structure FnResult where
  name : Option String
  deriving Repr, DecidableEq

/-- A long-running operation as returned by the cloud-functions API: the
polled status object carries `done`, and on completion either an `error` or a
`response` (the source never reads `error`). -/
structure Operation where
  name : String
  done : Bool
  error : Option Err
  response : Option FnResult
  deriving Repr, DecidableEq

/-- How one `pollOperation` promise can settle. `crashed` is the uncaught
TypeError thrown when the source reads `.name` of an `undefined`
`_operation.response` inside the get callback — the promise then neither
resolves nor rejects. `pending` means the supplied status-query outcomes were
exhausted with the operation still not done. -/
inductive PollOutcome
  | rejected (e : Err)
  | resolved (r : FnResult)
  | crashed
  | pending
  deriving Repr, DecidableEq

/-- Embeds `pollOperation` (index.js 116-133) over the successive outcomes of
`gcf.operations.get`: a query error rejects; a done operation is logged via
`_operation.response.name` (throwing when `response` is absent) and resolved
with `_operation.response`; otherwise the poll retries after 500 ms with the
next query outcome. The operation's own `error` field is never consulted. -/
def pollOperation : List (Except Err Operation) → PollOutcome
  | [] => .pending
  | f :: rest =>
    match f with
    | .error e => .rejected e
    | .ok op =>
      if op.done then
        match op.response with
        | some r => .resolved r
        | none => .crashed
      else
        pollOperation rest

/-- One entry of the `errors` array of a googleapis request error. -/
structure ErrEntry where
  reason : String
  deriving Repr, DecidableEq

/-- A googleapis request error: a message, plus an optional `errors` array. -/
structure ApiError where
  message : String
  errors : Option (List ErrEntry)
  deriving Repr, DecidableEq

/-- The resource body built by `deployFunction` (index.js 175-179). -/
structure Resource where
  sourceArchiveUrl : String
  name : String
  deriving Repr, DecidableEq

/-- Embeds the guard of index.js 138:
`err && err.errors && err.errors[0] && err.errors[0].reason === 'alreadyExists'`
(with `err` already known present). -/
def isAlreadyExists (e : ApiError) : Bool :=
  match e.errors with
  | some (first :: _) => first.reason == "alreadyExists"
  | _ => false

/-- Embeds `createOrUpdateFunction` (index.js 135-158). The create and update
API calls are opaque collaborators taking the resource body and the second
request field the source passes (`location` for create, `resource.name` for
update). A create error whose first entry's reason is alreadyExists falls back
to update with the same resource body and the resource's name, and the update
outcome decides the result; any other create error rejects; a create success
resolves with the create operation handle. -/
def createOrUpdateFunction
    (create : Resource → String → Except ApiError Operation)
    (update : Resource → String → Except ApiError Operation)
    (location : String) (resource : Resource) : Except ApiError Operation :=
  match create resource location with
  | .ok op => .ok op
  | .error e => if isAlreadyExists e then update resource resource.name else .error e

/-- The suffix of a character list after its last slash:
the list-level computation behind path.parse(p).base for the slash-separated
paths this program builds. -/
def lastPart (cs : List Char) : List Char :=
  cs.foldl (fun acc c => if c = '/' then [] else acc ++ [c]) []

/-- Embeds `path.parse(archive).base` (index.js 176): the base filename of a
path, i.e. everything after the last slash. -/
def pathBase (p : String) : String :=
  ⟨lastPart p.data⟩

/-- The `location` string built at index.js 174. -/
def functionLocation (projectId location : String) : String :=
  "projects/" ++ projectId ++ "/locations/" ++ location

/-- Embeds the resource construction of `deployFunction` (index.js 174-179):
the source archive URL is gs:// followed by the stage bucket and the base
filename of the local archive path, and the fully-qualified function name is
the location prefix followed by /functions/ and the function name. -/
def buildResource (stageBucket projectId location fnName archive : String) : Resource :=
  { sourceArchiveUrl := "gs://" ++ stageBucket ++ "/" ++ pathBase archive
  , name := functionLocation projectId location ++ "/functions/" ++ fnName }

/-- A deploy result annotated by the handler's final forEach (index.js 267-269):
`result.deployment = config.currentDeployments[i]`. -/
structure AnnotatedResult where
  result : FnResult
  deployment : Deployment
  deriving Repr, DecidableEq

/-- The single HTTP response the handler sends: `res.status(200).send(results)`
on full success, or `res.status(code).send(message)` from the final catch. -/
inductive Response
  | ok (results : List AnnotatedResult)
  | err (status : Nat) (body : String)
  deriving Repr, DecidableEq

/-- What an invocation of the exported handler does: either it sends exactly
one response, or it throws synchronously out of the handler before the promise
chain is built, sending no response at all. -/
inductive HandlerOutcome
  | response (r : Response)
  | crash
  deriving Repr, DecidableEq

/-- Which stages of the pipeline were invoked during one handler run. -/
structure Trace where
  validated : Bool
  fetched : Bool
  zipped : Bool
  uploaded : Bool
  deployed : Bool
  deriving Repr, DecidableEq

/-- The external collaborators of one handler run: the HMAC primitive, the JSON
serializer, the download outcome, and per-deployment-index outcomes for the
zip, upload and deploy stages, plus the random token drawn by each zip call. -/
structure World where
  hmacSha1Hex : String → String → String
  jsonStringify : Body → String
  downloadOutcome : Except Err Unit
  zipOutcome : Nat → Except Err Unit
  zipToken : Nat → String
  uploadOutcome : Nat → Except Err Unit
  deployOutcome : Nat → Except Err FnResult

/-- Promise.all over already-settled outcomes: the list of values when every
member resolved, otherwise the first rejection in list order. -/
def collect {α : Type} : List (Except Err α) → Except Err (List α)
  | [] => .ok []
  | x :: rest =>
    match x with
    | .error e => .error e
    | .ok a =>
      match collect rest with
      | .error e => .error e
      | .ok as => .ok (a :: as)

/-- The final catch of the handler (index.js 277-283):
`res.status(err.statusCode ? err.statusCode : 500).send(err.message)` — a
falsy (absent or zero) statusCode yields 500. -/
def errResponse (e : Err) : Response :=
  .err (match e.statusCode with
        | some n => if n = 0 then 500 else n
        | none => 500) e.message

/-- The promise chain of index.js 246-283 after the matched deployments are
known: download the repository once, then zip, upload and deploy each matched
deployment under Promise.all, then annotate and send 200; the first failing
stage funnels into the single catch. -/
def runPipeline (w : World) (current : List Deployment) : HandlerOutcome × Trace :=
  match w.downloadOutcome with
  | .error e => (.response (errResponse e), ⟨true, true, false, false, false⟩)
  | .ok _ =>
    match collect ((List.range current.length).map w.zipOutcome) with
    | .error e => (.response (errResponse e), ⟨true, true, true, false, false⟩)
    | .ok _ =>
      match collect ((List.range current.length).map w.uploadOutcome) with
      | .error e => (.response (errResponse e), ⟨true, true, true, true, false⟩)
      | .ok _ =>
        match collect ((List.range current.length).map w.deployOutcome) with
        | .error e => (.response (errResponse e), ⟨true, true, true, true, true⟩)
        | .ok results =>
          (.response (.ok (List.zipWith (fun r d => ⟨r, d⟩) results current)),
           ⟨true, true, true, true, true⟩)

/-- Embeds the exported handler `githubAutoDeployer` (index.js 235-284).
It first dereferences `req.body.repository.owner.name` and
`req.body.repository.name` outside any promise chain, so an absent
`repository` (or absent `repository.owner`) throws a synchronous TypeError out
of the handler with no response sent. Otherwise it runs
validate → match → download → zip all → upload all → deploy all, funnels the
first failure into the single catch, and on full success responds 200 with the
deploy results annotated by their originating deployment configs. -/
def githubAutoDeployer (w : World) (cfg : Config) (req : Request) :
    HandlerOutcome × Trace :=
  match req.body.repository with
  | none => (.crash, ⟨false, false, false, false, false⟩)
  | some repoObj =>
    match repoObj.owner with
    | none => (.crash, ⟨false, false, false, false, false⟩)
    | some owner =>
      let user := jsToString owner.name
      let repo := jsToString repoObj.name
      let repository := user ++ "/" ++ repo
      match validateRequest w.hmacSha1Hex w.jsonStringify cfg.secretToken req with
      | .error e => (.response (errResponse e), ⟨true, false, false, false, false⟩)
      | .ok _ =>
        match getCurrentDeployments cfg.deployments repository with
        | .error e => (.response (errResponse e), ⟨true, false, false, false, false⟩)
        | .ok current => runPipeline w current

/-- Every error produced by the post-match stage outcomes of a run over `n`
matched deployments, in pipeline order: the download error if any, then the
zip, upload and deploy errors by deployment index. -/
def pipelineErrors (w : World) (n : Nat) : List Err :=
  (match w.downloadOutcome with | .error e => [e] | .ok _ => [])
    ++ (List.range n).filterMap
        (fun i => match w.zipOutcome i with | .error e => some e | .ok _ => none)
    ++ (List.range n).filterMap
        (fun i => match w.uploadOutcome i with | .error e => some e | .ok _ => none)
    ++ (List.range n).filterMap
        (fun i => match w.deployOutcome i with | .error e => some e | .ok _ => none)

/-! ## Concrete sample data, used by witnesses and counterexamples -/

def sampleOwner : OwnerObj := { name := some "alice" }

def sampleRepoObj : RepositoryObj := { owner := some sampleOwner, name := some "widgets" }

def sampleBody : Body := { repository := some sampleRepoObj }

def sampleDeployment : Deployment :=
  { repository := "alice/widgets", path := "fn", functionName := "widgetFn" }

def sampleConfig : Config :=
  { stageBucket := "stage-bucket", location := "us-central1"
  , secretToken := "s3cr3t", deployments := [sampleDeployment] }

def noMatchConfig : Config :=
  { stageBucket := "stage-bucket", location := "us-central1"
  , secretToken := "s3cr3t"
  , deployments := [{ repository := "bob/other", path := "fn", functionName := "otherFn" }] }

def constHmac : String → String → String := fun _ _ => "0123abcd"

def constStringify : Body → String := fun _ => "body-json"

def sampleResult : FnResult := { name := some "deployed-fn" }

def sampleWorldOk : World :=
  { hmacSha1Hex := constHmac
  , jsonStringify := constStringify
  , downloadOutcome := .ok ()
  , zipOutcome := fun _ => .ok ()
  , zipToken := fun _ => "aaaabbbbccccd"
  , uploadOutcome := fun _ => .ok ()
  , deployOutcome := fun _ => .ok sampleResult }

def badSigRequest : Request := { body := sampleBody, xHubSignature := some "sha1=bogus" }

def goodSigRequest : Request := { body := sampleBody, xHubSignature := some "sha1=0123abcd" }

def noRepoRequest : Request :=
  { body := { repository := none }, xHubSignature := some "sha1=0123abcd" }

def opDoneWithError : Operation :=
  { name := "operations/op-1", done := true
  , error := some { message := "deployment failed", statusCode := none }
  , response := none }

def opNotDone : Operation :=
  { name := "operations/op-1", done := false, error := none, response := none }

def opDoneBoth : Operation :=
  { name := "operations/op-1", done := true
  , error := some { message := "deployment failed", statusCode := none }
  , response := some sampleResult }

def alreadyExistsError : ApiError :=
  { message := "Function already exists", errors := some [{ reason := "alreadyExists" }] }

def sampleResource : Resource :=
  { sourceArchiveUrl := "gs://stage-bucket/abc123.zip"
  , name := "projects/proj-1/locations/us-central1/functions/widgetFn" }

def updateOp : Operation :=
  { name := "operations/update-1", done := false, error := none, response := none }

def createAlreadyExists : Resource → String → Except ApiError Operation :=
  fun _ _ => .error alreadyExistsError

def updateOk : Resource → String → Except ApiError Operation :=
  fun _ _ => .ok updateOp

/-! ## Helper lemmas -/

theorem string_data_append (a b : String) : (a ++ b).data = a.data ++ b.data := rfl

theorem string_eq_of_data_eq {a b : String} (h : a.data = b.data) : a = b := by
  cases a
  cases b
  exact congrArg String.mk h

theorem collect_error_mem {α : Type} {e : Err} :
    ∀ {l : List (Except Err α)}, collect l = .error e → Except.error e ∈ l := by
  intro l
  induction l with
  | nil => intro h; simp [collect] at h
  | cons x rest ih =>
    intro h
    cases x with
    | error e2 =>
      have he : e2 = e := by simpa [collect] using h
      subst he
      exact List.mem_cons_self _ _
    | ok a =>
      cases hr : collect rest with
      | error e2 =>
        have he : e2 = e := by simpa [collect, hr] using h
        subst he
        exact List.mem_cons_of_mem _ (ih hr)
      | ok as => simp [collect, hr] at h

theorem collect_ok_of_forall {α : Type} :
    ∀ {l : List (Except Err α)}, (∀ x ∈ l, ∃ a, x = .ok a) →
      ∃ as, collect l = .ok as := by
  intro l
  induction l with
  | nil => intro _; exact ⟨[], rfl⟩
  | cons x rest ih =>
    intro h
    obtain ⟨a, rfl⟩ := h x (List.mem_cons_self _ _)
    obtain ⟨as, has⟩ := ih (fun y hy => h y (List.mem_cons_of_mem _ hy))
    exact ⟨a :: as, by simp [collect, has]⟩

theorem collect_ok_forall {α : Type} :
    ∀ {l : List (Except Err α)} {as : List α}, collect l = .ok as →
      ∀ x ∈ l, ∃ a, x = .ok a := by
  intro l
  induction l with
  | nil => intro as _ x hx; simp at hx
  | cons y rest ih =>
    intro as h x hx
    cases y with
    | error e => simp [collect] at h
    | ok a =>
      cases hr : collect rest with
      | error e => simp [collect, hr] at h
      | ok bs =>
        rcases List.mem_cons.mp hx with rfl | hx2
        · exact ⟨a, rfl⟩
        · exact ih hr x hx2

theorem download_mem_pipelineErrors {w : World} {n : Nat} {e : Err}
    (h : w.downloadOutcome = .error e) : e ∈ pipelineErrors w n := by
  simp [pipelineErrors, h]

theorem zip_mem_pipelineErrors {w : World} {n i : Nat} {e : Err}
    (hi : i < n) (h : w.zipOutcome i = .error e) : e ∈ pipelineErrors w n := by
  refine List.mem_append_left _ (List.mem_append_left _ (List.mem_append_right _ ?_))
  exact List.mem_filterMap.mpr ⟨i, List.mem_range.mpr hi, by simp [h]⟩

theorem upload_mem_pipelineErrors {w : World} {n i : Nat} {e : Err}
    (hi : i < n) (h : w.uploadOutcome i = .error e) : e ∈ pipelineErrors w n := by
  refine List.mem_append_left _ (List.mem_append_right _ ?_)
  exact List.mem_filterMap.mpr ⟨i, List.mem_range.mpr hi, by simp [h]⟩

theorem deploy_mem_pipelineErrors {w : World} {n i : Nat} {e : Err}
    (hi : i < n) (h : w.deployOutcome i = .error e) : e ∈ pipelineErrors w n := by
  refine List.mem_append_right _ ?_
  exact List.mem_filterMap.mpr ⟨i, List.mem_range.mpr hi, by simp [h]⟩

theorem pipelineErrors_eq_nil {w : World} {n : Nat} (h : pipelineErrors w n = []) :
    w.downloadOutcome = .ok ()
    ∧ (∀ i, i < n → w.zipOutcome i = .ok ())
    ∧ (∀ i, i < n → w.uploadOutcome i = .ok ())
    ∧ (∀ i, i < n → ∃ r, w.deployOutcome i = .ok r) := by
  simp only [pipelineErrors, List.append_eq_nil] at h
  obtain ⟨⟨⟨h1, h2⟩, h3⟩, h4⟩ := h
  refine ⟨?_, ?_, ?_, ?_⟩
  · cases hd : w.downloadOutcome with
    | error e => rw [hd] at h1; simp at h1
    | ok u => cases u; rfl
  · intro i hi
    have := List.filterMap_eq_nil_iff.mp h2 i (List.mem_range.mpr hi)
    cases hz : w.zipOutcome i with
    | error e => rw [hz] at this; simp at this
    | ok u => cases u; rfl
  · intro i hi
    have := List.filterMap_eq_nil_iff.mp h3 i (List.mem_range.mpr hi)
    cases hu : w.uploadOutcome i with
    | error e => rw [hu] at this; simp at this
    | ok u => cases u; rfl
  · intro i hi
    have := List.filterMap_eq_nil_iff.mp h4 i (List.mem_range.mpr hi)
    cases hd : w.deployOutcome i with
    | error e => rw [hd] at this; simp at this
    | ok r => exact ⟨r, rfl⟩

theorem pipelineErrors_nil_of_ok {w : World} {n : Nat} {zs us : List Unit}
    {rs : List FnResult}
    (hd : w.downloadOutcome = .ok ())
    (hz : collect ((List.range n).map w.zipOutcome) = .ok zs)
    (hu : collect ((List.range n).map w.uploadOutcome) = .ok us)
    (hr : collect ((List.range n).map w.deployOutcome) = .ok rs) :
    pipelineErrors w n = [] := by
  simp only [pipelineErrors, List.append_eq_nil]
  refine ⟨⟨⟨by simp [hd], ?_⟩, ?_⟩, ?_⟩
  · refine List.filterMap_eq_nil_iff.mpr (fun i hi => ?_)
    obtain ⟨u, hu2⟩ := collect_ok_forall hz (w.zipOutcome i) (List.mem_map_of_mem _ hi)
    simp [hu2]
  · refine List.filterMap_eq_nil_iff.mpr (fun i hi => ?_)
    obtain ⟨u, hu2⟩ := collect_ok_forall hu (w.uploadOutcome i) (List.mem_map_of_mem _ hi)
    simp [hu2]
  · refine List.filterMap_eq_nil_iff.mpr (fun i hi => ?_)
    obtain ⟨r, hr2⟩ := collect_ok_forall hr (w.deployOutcome i) (List.mem_map_of_mem _ hi)
    simp [hr2]

theorem foldl_no_slash (ds : List Char) (h : '/' ∉ ds) :
    ∀ acc : List Char,
      ds.foldl (fun acc c => if c = '/' then [] else acc ++ [c]) acc = acc ++ ds := by
  induction ds with
  | nil => intro acc; simp
  | cons d ds ih =>
    intro acc
    have hd : ¬(d = '/') := fun he => h (he ▸ List.mem_cons_self _ _)
    simp only [List.foldl_cons, if_neg hd]
    rw [ih (fun hm => h (List.mem_cons_of_mem _ hm)) (acc ++ [d])]
    simp

theorem lastPart_append_no_slash (cs ds : List Char) (h : '/' ∉ ds) :
    lastPart (cs ++ ds) = lastPart cs ++ ds := by
  unfold lastPart
  rw [List.foldl_append]
  exact foldl_no_slash ds h _

theorem pathBase_zipArchivePath (t : String) (h : '/' ∉ t.data) :
    pathBase (zipArchivePath t) = t ++ ".zip" := by
  have hdata : (zipArchivePath t).data = "/tmp/".data ++ (t.data ++ ".zip".data) := by
    show (("/tmp/" ++ t) ++ ".zip").data = _
    rw [string_data_append, string_data_append, List.append_assoc]
  have hzip : '/' ∉ ".zip".data := by decide
  have hcat : '/' ∉ t.data ++ ".zip".data := by
    intro hm
    rcases List.mem_append.mp hm with hm | hm
    · exact h hm
    · exact hzip hm
  refine string_eq_of_data_eq ?_
  show lastPart (zipArchivePath t).data = (t ++ ".zip").data
  rw [hdata, lastPart_append_no_slash _ _ hcat, string_data_append]
  have : lastPart "/tmp/".data = [] := rfl
  rw [this]
  simp

theorem zipArchivePath_inj {t1 t2 : String} (h : zipArchivePath t1 = zipArchivePath t2) :
    t1 = t2 := by
  have hd : "/tmp/".data ++ (t1.data ++ ".zip".data)
      = "/tmp/".data ++ (t2.data ++ ".zip".data) := by
    have h1 : (zipArchivePath t1).data = (zipArchivePath t2).data := congrArg String.data h
    calc "/tmp/".data ++ (t1.data ++ ".zip".data)
        = (zipArchivePath t1).data := by
          show _ = (("/tmp/" ++ t1) ++ ".zip").data
          rw [string_data_append, string_data_append, List.append_assoc]
      _ = (zipArchivePath t2).data := h1
      _ = "/tmp/".data ++ (t2.data ++ ".zip".data) := by
          show (("/tmp/" ++ t2) ++ ".zip").data = _
          rw [string_data_append, string_data_append, List.append_assoc]
  have hmid : t1.data ++ ".zip".data = t2.data ++ ".zip".data :=
    List.append_cancel_left hd
  exact string_eq_of_data_eq (List.append_cancel_right hmid)

theorem runBursts_cached (c : Client) (bursts : List (List AuthOutcome)) :
    runBursts (some c) bursts
      = (bursts.map (fun b => b.map (fun _ => (Except.ok c, false))), some c) := by
  induction bursts with
  | nil => rfl
  | cons b rest ih => simp [runBursts, getClientBurst, ih]

theorem getClientBurst_none_invokes_all (auths : List AuthOutcome) :
    (getClientBurst none auths).1.countP (fun p => p.2) = auths.length := by
  show (auths.map _).countP _ = auths.length
  induction auths with
  | nil => rfl
  | cons a rest ih =>
    cases a with
    | failure e => simp [List.countP_cons, ih]
    | success c3 => simp [List.countP_cons, ih]

theorem getClientBurst_last_success (auths : List AuthOutcome) (c2 : Client) :
    (getClientBurst none (auths ++ [AuthOutcome.success c2])).2 = some c2 := by
  show (auths ++ [AuthOutcome.success c2]).foldl authAssign none = some c2
  rw [List.foldl_append]
  rfl

theorem runBursts_sequential_le_one (auths : List AuthOutcome) :
    ((runBursts none (auths.map (fun a => [a]))).1.flatten.countP
      (fun p => p.2 && (match p.1 with | .ok _ => true | .error _ => false))) ≤ 1 := by
  induction auths with
  | nil => simp [runBursts]
  | cons a rest ih =>
    cases a with
    | failure e =>
      simpa [runBursts, getClientBurst, authAssign, List.countP_cons] using ih
    | success c2 =>
      have h0 : ((runBursts (some c2) (rest.map (fun a => [a]))).1.flatten.countP
          (fun p => p.2 && (match p.1 with | .ok _ => true | .error _ => false))) = 0 := by
        rw [runBursts_cached]
        refine List.countP_eq_zero.mpr ?_
        intro p hp
        obtain ⟨b, hb, hpb⟩ := List.mem_flatten.mp hp
        obtain ⟨b0, _, rfl⟩ := List.mem_map.mp hb
        obtain ⟨x, _, rfl⟩ := List.mem_map.mp hpb
        simp
      simp [runBursts, getClientBurst, authAssign, List.countP_cons, h0]

/-! ## Claims -/

/-- C1: validation succeeds if and only if the request's x-hub-signature
header equals the string sha1= followed by the lowercase hex HMAC-SHA1, keyed
with the configured secret token, of the JSON serialization of the request
body; on mismatch the handler responds 403 with message Unauthorized and no
downstream stage (fetch, archive, upload, deploy) is invoked. -/
theorem c1_signature_validation (w : World) (cfg : Config) (req : Request)
    (ro : RepositoryObj) (ow : OwnerObj)
    (hrepo : req.body.repository = some ro) (hown : ro.owner = some ow) :
    (validateRequest w.hmacSha1Hex w.jsonStringify cfg.secretToken req = .ok () ↔
      req.xHubSignature =
        some ("sha1=" ++ w.hmacSha1Hex cfg.secretToken (w.jsonStringify req.body)))
    ∧ (req.xHubSignature ≠
        some ("sha1=" ++ w.hmacSha1Hex cfg.secretToken (w.jsonStringify req.body)) →
      githubAutoDeployer w cfg req =
        (.response (.err 403 "Unauthorized"), ⟨true, false, false, false, false⟩)) := by
  constructor
  · constructor
    · intro h
      by_contra hne
      simp [validateRequest, hne] at h
    · intro h
      simp [validateRequest, h]
  · intro h
    simp [githubAutoDeployer, hrepo, hown, validateRequest, h, errResponse]

/-- C1 witness: a concrete request whose signature header mismatches the
computed digest gets exactly the 403 Unauthorized response, with the fetch,
zip, upload and deploy stages never invoked. -/
theorem c1_signature_validation_witness :
    githubAutoDeployer sampleWorldOk sampleConfig badSigRequest =
      (.response (.err 403 "Unauthorized"), ⟨true, false, false, false, false⟩) :=
  (c1_signature_validation sampleWorldOk sampleConfig badSigRequest sampleRepoObj
    sampleOwner rfl rfl).2 (by decide)

/-- C2: refuted on the code (code bug). The source declares
cleanup(archive) inside uploadArchive but calls it as cleanup() with no
argument, so the parameter shadows the outer archive, fs.unlinkSync runs on
undefined, its TypeError is swallowed, and the local archive file survives
every upload attempt: with /tmp/abc.zip present beforehand, the file still
exists after the call on both the success and the failure path, contradicting
the claim that it no longer exists. -/
theorem c2_cleanup_never_deletes :
    (uploadArchive (.ok ()) ["/tmp/abc.zip"] "/tmp/abc.zip").2 = ["/tmp/abc.zip"]
    ∧ (uploadArchive (.error { message := "upload failed", statusCode := none })
        ["/tmp/abc.zip"] "/tmp/abc.zip").2 = ["/tmp/abc.zip"]
    ∧ (uploadArchive (.ok ()) ["/tmp/abc.zip"] "/tmp/abc.zip").1 = .ok "/tmp/abc.zip"
    ∧ (uploadArchive (.error { message := "upload failed", statusCode := none })
        ["/tmp/abc.zip"] "/tmp/abc.zip").1
        = .error { message := "upload failed", statusCode := none } :=
  ⟨rfl, rfl, rfl, rfl⟩

/-- C3 counterexample: a deploy operation observed done and carrying an error
does not make the poll reject — the source never consults _operation.error;
here the done operation has an error and no response, and the get callback
throws an uncaught TypeError reading .name of undefined, so the poll settles
as crashed, not as a rejection. -/
theorem c3_poll_counterexample :
    opDoneWithError.done = true
    ∧ opDoneWithError.error = some { message := "deployment failed", statusCode := none }
    ∧ pollOperation [Except.ok opDoneWithError] = PollOutcome.crashed :=
  ⟨rfl, rfl, rfl⟩

/-- C3 (amended): once the polling loop observes the operation done it never
consults the operation's error field: it resolves with the response payload
whenever one is present — even when the operation carries an error — and
crashes on the response-name read when the response is absent; the poll
rejects only when the status query itself errs. -/
theorem c3_poll_done_ignores_error (pre : List (Except Err Operation))
    (hpre : ∀ f ∈ pre, ∃ op, f = Except.ok op ∧ op.done = false)
    (op : Operation) (hdone : op.done = true) :
    (∀ r, op.response = some r → pollOperation (pre ++ [Except.ok op]) = .resolved r)
    ∧ (op.response = none → pollOperation (pre ++ [Except.ok op]) = .crashed)
    ∧ (∀ e, pollOperation (pre ++ [Except.ok op]) ≠ .rejected e)
    ∧ (∀ e, pollOperation [Except.error e] = .rejected e) := by
  induction pre with
  | nil =>
    refine ⟨fun r hr => by simp [pollOperation, hdone, hr],
            fun hr => by simp [pollOperation, hdone, hr],
            fun e h => ?_, fun e => rfl⟩
    cases hr : op.response with
    | some r => simp [pollOperation, hdone, hr] at h
    | none => simp [pollOperation, hdone, hr] at h
  | cons f rest ih =>
    obtain ⟨op2, rfl, hnd⟩ := hpre _ (List.mem_cons_self _ _)
    have ih2 := ih (fun g hg => hpre g (List.mem_cons_of_mem _ hg))
    refine ⟨fun r hr => ?_, fun hr => ?_, fun e h => ?_, fun e => rfl⟩
    · simp only [List.cons_append]
      simp [pollOperation, hnd]
      exact ih2.1 r hr
    · simp only [List.cons_append]
      simp [pollOperation, hnd]
      exact ih2.2.1 hr
    · rw [List.cons_append] at h
      simp [pollOperation, hnd] at h
      exact ih2.2.2.1 e h

/-- C3 witness: after one not-yet-done status query, a done operation that
carries both an error and a response resolves with the response payload. -/
theorem c3_poll_done_ignores_error_witness :
    pollOperation [Except.ok opNotDone, Except.ok opDoneBoth]
      = PollOutcome.resolved sampleResult :=
  (c3_poll_done_ignores_error [Except.ok opNotDone]
    (fun _ hf => ⟨opNotDone, List.mem_singleton.mp hf, rfl⟩)
    opDoneBoth rfl).1 sampleResult rfl

/-- C4: the deployment matcher selects exactly the configured entries whose
repository field is string-equal to the incoming identifier, preserving the
original configuration order; when that subset is empty the handler responds
with status 500 carrying the message No matching deployments for
the repository followed by a period, and no repository fetch occurs. -/
theorem c4_deployment_matcher (w : World) (cfg : Config) (req : Request)
    (ro : RepositoryObj) (ow : OwnerObj)
    (hrepo : req.body.repository = some ro) (hown : ro.owner = some ow)
    (hsig : req.xHubSignature =
      some ("sha1=" ++ w.hmacSha1Hex cfg.secretToken (w.jsonStringify req.body))) :
    (∀ res, getCurrentDeployments cfg.deployments
        (jsToString ow.name ++ "/" ++ jsToString ro.name) = .ok res →
      List.Sublist res cfg.deployments
      ∧ ∀ d, d ∈ res ↔ d ∈ cfg.deployments
          ∧ d.repository = jsToString ow.name ++ "/" ++ jsToString ro.name)
    ∧ (cfg.deployments.filter
        (fun d => d.repository == jsToString ow.name ++ "/" ++ jsToString ro.name) = [] →
      githubAutoDeployer w cfg req =
        (.response (.err 500
          ("No matching deployments for "
            ++ (jsToString ow.name ++ "/" ++ jsToString ro.name) ++ ".")),
         ⟨true, false, false, false, false⟩)) := by
  constructor
  · intro res h
    simp only [getCurrentDeployments] at h
    split at h
    · exact absurd h (by simp)
    · have hres :
          cfg.deployments.filter
            (fun d => d.repository == jsToString ow.name ++ "/" ++ jsToString ro.name)
            = res := by
        exact Except.ok.inj h
      subst hres
      refine ⟨List.filter_sublist _, fun d => ?_⟩
      simp [List.mem_filter]
  · intro h
    simp [githubAutoDeployer, hrepo, hown, validateRequest, hsig,
      getCurrentDeployments, h, errResponse]

/-- C4 witness: a validated request for a repository with no configured
deployment gets the 500 response with the descriptive message and the fetch
stage is never invoked. -/
theorem c4_deployment_matcher_witness :
    githubAutoDeployer sampleWorldOk noMatchConfig goodSigRequest =
      (.response (.err 500
        ("No matching deployments for "
          ++ (jsToString sampleOwner.name ++ "/" ++ jsToString sampleRepoObj.name) ++ ".")),
       ⟨true, false, false, false, false⟩) :=
  (c4_deployment_matcher sampleWorldOk noMatchConfig goodSigRequest sampleRepoObj
    sampleOwner rfl rfl (by decide)).2 (by decide)

/-- C5: the deploy stage builds a resource descriptor whose source archive URL
is exactly gs:// followed by the stage bucket, a slash, and the base filename
of the archive path, and whose fully-qualified name is exactly
projects/(project)/locations/(location)/functions/(function name); in
particular an archive generated by the archiver from a slash-free token has
base filename token.zip, and /tmp/abc123.zip yields base filename abc123.zip. -/
theorem c5_resource_descriptor (bucket proj loc fn tok : String)
    (h : '/' ∉ tok.data) :
    (buildResource bucket proj loc fn (zipArchivePath tok)).sourceArchiveUrl
      = "gs://" ++ bucket ++ "/" ++ (tok ++ ".zip")
    ∧ (buildResource bucket proj loc fn (zipArchivePath tok)).name
      = "projects/" ++ proj ++ "/locations/" ++ loc ++ "/functions/" ++ fn
    ∧ pathBase "/tmp/abc123.zip" = "abc123.zip" := by
  refine ⟨?_, rfl, by decide⟩
  show "gs://" ++ bucket ++ "/" ++ pathBase (zipArchivePath tok) = _
  rw [pathBase_zipArchivePath tok h]

/-- C5 witness: at bucket B and archive filename abc123.zip the derived URL is
exactly gs://B/abc123.zip and the derived name is exactly the fully-qualified
function name. -/
theorem c5_resource_descriptor_witness :
    (buildResource "B" "proj-1" "us-central1" "widgetFn"
        (zipArchivePath "abc123")).sourceArchiveUrl
      = "gs://" ++ "B" ++ "/" ++ ("abc123" ++ ".zip")
    ∧ (buildResource "B" "proj-1" "us-central1" "widgetFn"
        (zipArchivePath "abc123")).name
      = "projects/" ++ "proj-1" ++ "/locations/" ++ "us-central1"
          ++ "/functions/" ++ "widgetFn"
    ∧ pathBase "/tmp/abc123.zip" = "abc123.zip" :=
  c5_resource_descriptor "B" "proj-1" "us-central1" "widgetFn" "abc123" (by decide)

/-- C6: when the create call fails with first error reason alreadyExists, an
update call is made with the same resource body and the resource's
fully-qualified name and its outcome decides the result; a create error with
any other reason shape rejects with that error; a successful create resolves
with the create operation handle; and the alreadyExists test holds exactly
when the error's first entry carries reason alreadyExists. -/
theorem c6_create_or_update
    (create update : Resource → String → Except ApiError Operation)
    (location : String) (resource : Resource) :
    (∀ e, create resource location = .error e → isAlreadyExists e = true →
      createOrUpdateFunction create update location resource
        = update resource resource.name)
    ∧ (∀ e, create resource location = .error e → isAlreadyExists e = false →
      createOrUpdateFunction create update location resource = .error e)
    ∧ (∀ op, create resource location = .ok op →
      createOrUpdateFunction create update location resource = .ok op)
    ∧ (∀ e : ApiError, isAlreadyExists e = true ↔
      ∃ first rest, e.errors = some (first :: rest)
        ∧ first.reason = "alreadyExists") := by
  refine ⟨?_, ?_, ?_, ?_⟩
  · intro e he hae
    simp [createOrUpdateFunction, he, hae]
  · intro e he hae
    simp [createOrUpdateFunction, he, hae]
  · intro op hop
    simp [createOrUpdateFunction, hop]
  · intro e
    cases he : e.errors with
    | none => simp [isAlreadyExists, he]
    | some l =>
      cases l with
      | nil => simp [isAlreadyExists, he]
      | cons first rest =>
        simp only [isAlreadyExists, he, beq_iff_eq, Option.some.injEq]
        constructor
        · intro hr
          exact ⟨first, rest, rfl, hr⟩
        · rintro ⟨first2, rest2, heq, hr⟩
          obtain ⟨h1, h2⟩ := List.cons.inj heq
          rw [h1]
          exact hr

/-- C6 witness: with a create collaborator failing with reason alreadyExists
and an update collaborator succeeding, create-or-update resolves with the
update operation handle, so the second run for an existing name succeeds. -/
theorem c6_create_or_update_witness :
    createOrUpdateFunction createAlreadyExists updateOk
      "projects/proj-1/locations/us-central1" sampleResource = .ok updateOp :=
  ((c6_create_or_update createAlreadyExists updateOk
      "projects/proj-1/locations/us-central1" sampleResource).1
    alreadyExistsError rfl (by decide)).trans rfl

/-- C7: for a validated request matching a non-empty deployment list, if any
stage of any deployment's pipeline fails the client receives exactly one error
response — status the error's statusCode when present (and non-zero) else
500, body the error's message — and never a per-deployment result array; the
200 response with the results annotated by their originating deployment
configs is produced exactly when every stage of every deployment succeeds. -/
theorem c7_all_or_nothing (w : World) (cfg : Config) (req : Request)
    (ro : RepositoryObj) (ow : OwnerObj)
    (hrepo : req.body.repository = some ro) (hown : ro.owner = some ow)
    (hsig : req.xHubSignature =
      some ("sha1=" ++ w.hmacSha1Hex cfg.secretToken (w.jsonStringify req.body)))
    (current : List Deployment)
    (hmatch : getCurrentDeployments cfg.deployments
      (jsToString ow.name ++ "/" ++ jsToString ro.name) = .ok current) :
    (pipelineErrors w current.length ≠ [] →
      ∃ e ∈ pipelineErrors w current.length,
        (githubAutoDeployer w cfg req).1 = .response (errResponse e)
        ∧ ∀ rs, (githubAutoDeployer w cfg req).1 ≠ .response (.ok rs))
    ∧ (pipelineErrors w current.length = [] →
      ∃ results,
        collect ((List.range current.length).map w.deployOutcome) = .ok results
        ∧ githubAutoDeployer w cfg req =
            (.response (.ok (List.zipWith
              (fun r d => AnnotatedResult.mk r d) results current)),
             ⟨true, true, true, true, true⟩)) := by
  have hrun : githubAutoDeployer w cfg req = runPipeline w current := by
    simp [githubAutoDeployer, hrepo, hown, validateRequest, hsig, hmatch]
  rw [hrun]
  constructor
  · intro hne
    cases hd : w.downloadOutcome with
    | error e =>
      refine ⟨e, download_mem_pipelineErrors hd, by simp [runPipeline, hd], ?_⟩
      intro rs
      simp [runPipeline, hd, errResponse]
    | ok u =>
      cases u
      cases hz : collect ((List.range current.length).map w.zipOutcome) with
      | error e =>
        obtain ⟨i, hi, hie⟩ := List.mem_map.mp (collect_error_mem hz)
        refine ⟨e, zip_mem_pipelineErrors (List.mem_range.mp hi) hie,
          by simp [runPipeline, hd, hz], ?_⟩
        intro rs
        simp [runPipeline, hd, hz, errResponse]
      | ok zs =>
        cases hu : collect ((List.range current.length).map w.uploadOutcome) with
        | error e =>
          obtain ⟨i, hi, hie⟩ := List.mem_map.mp (collect_error_mem hu)
          refine ⟨e, upload_mem_pipelineErrors (List.mem_range.mp hi) hie,
            by simp [runPipeline, hd, hz, hu], ?_⟩
          intro rs
          simp [runPipeline, hd, hz, hu, errResponse]
        | ok us =>
          cases hdep : collect ((List.range current.length).map w.deployOutcome) with
          | error e =>
            obtain ⟨i, hi, hie⟩ := List.mem_map.mp (collect_error_mem hdep)
            refine ⟨e, deploy_mem_pipelineErrors (List.mem_range.mp hi) hie,
              by simp [runPipeline, hd, hz, hu, hdep], ?_⟩
            intro rs
            simp [runPipeline, hd, hz, hu, hdep, errResponse]
          | ok rs =>
            exact absurd (pipelineErrors_nil_of_ok hd hz hu hdep) hne
  · intro hnil
    obtain ⟨hd, hz, hu, hdep⟩ := pipelineErrors_eq_nil hnil
    obtain ⟨zs, hzs⟩ := collect_ok_of_forall
      (l := (List.range current.length).map w.zipOutcome) (by
        intro x hx
        obtain ⟨i, hi, rfl⟩ := List.mem_map.mp hx
        exact ⟨(), hz i (List.mem_range.mp hi)⟩)
    obtain ⟨us, hus⟩ := collect_ok_of_forall
      (l := (List.range current.length).map w.uploadOutcome) (by
        intro x hx
        obtain ⟨i, hi, rfl⟩ := List.mem_map.mp hx
        exact ⟨(), hu i (List.mem_range.mp hi)⟩)
    obtain ⟨rs, hrs⟩ := collect_ok_of_forall
      (l := (List.range current.length).map w.deployOutcome) (by
        intro x hx
        obtain ⟨i, hi, rfl⟩ := List.mem_map.mp hx
        exact hdep i (List.mem_range.mp hi))
    exact ⟨rs, hrs, by simp [runPipeline, hd, hzs, hus, hrs]⟩

/-- C7 witness: a fully succeeding run over the one matched deployment yields
the 200 response whose single result is annotated with the matched config. -/
theorem c7_all_or_nothing_witness :
    ∃ results,
      collect ((List.range ([sampleDeployment] : List Deployment).length).map
        sampleWorldOk.deployOutcome) = .ok results
      ∧ githubAutoDeployer sampleWorldOk sampleConfig goodSigRequest =
          (.response (.ok (List.zipWith
            (fun r d => AnnotatedResult.mk r d) results [sampleDeployment])),
           ⟨true, true, true, true, true⟩) :=
  (c7_all_or_nothing sampleWorldOk sampleConfig goodSigRequest sampleRepoObj
    sampleOwner rfl rfl (by decide) [sampleDeployment] (by decide)).2 (by decide)

/-- C8 counterexample: the chosen archive paths of two distinct archive
operations are not never-equal — two operations over different source
directories whose 13-character random tokens coincide write to the identical
path /tmp/aaaaaaaaaaaaa.zip. -/
theorem c8_zip_counterexample :
    zipDir "aaaaaaaaaaaaa" (.ok ()) "/tmp/widgets/fn1" = .ok "/tmp/aaaaaaaaaaaaa.zip"
    ∧ zipDir "aaaaaaaaaaaaa" (.ok ()) "/tmp/widgets/fn2" = .ok "/tmp/aaaaaaaaaaaaa.zip"
    ∧ ("aaaaaaaaaaaaa" : String).length = 13 :=
  ⟨by decide, by decide, by decide⟩

/-- C8 (amended): every archiver call writes its archive to /tmp/(token).zip
for the random token generated for that call, and the paths of two archive
operations are equal exactly when their tokens are equal — so uniqueness holds
precisely when the 13-character random tokens differ, which the random
generator makes likely but does not guarantee. -/
theorem c8_zip_paths (t1 t2 d1 d2 : String) (o : Except Err Unit) :
    (zipArchivePath t1 = zipArchivePath t2 ↔ t1 = t2)
    ∧ (∀ a, zipDir t1 o d1 = .ok a → a = zipArchivePath t1)
    ∧ zipDir t1 (.ok ()) d2 = .ok (zipArchivePath t1) := by
  refine ⟨⟨fun h => zipArchivePath_inj h, fun h => by rw [h]⟩, ?_, rfl⟩
  intro a ha
  cases o with
  | error e => simp [zipDir] at ha
  | ok u =>
    cases u
    simp only [zipDir] at ha
    exact (Except.ok.inj ha).symm

/-- C8 witness: a concrete archiver call resolves with the path built from its
own token. -/
theorem c8_zip_paths_witness :
    zipDir "aaaabbbbccccd" (.ok ()) "/tmp/widgets/fn" =
      .ok (zipArchivePath "aaaabbbbccccd") :=
  (c8_zip_paths "aaaabbbbccccd" "x" "/tmp/widgets/fn" "/tmp/widgets/fn"
    (.ok ())).2.2

/-- C9 counterexample: the handle is not created at most once, and it is
replaced. Two getClient calls issued in the same tick on the empty slot — the
deploy fan-out with two matched deployments does exactly this — both invoke
the authentication collaborator (both invocation flags true), and after both
callbacks run the slot holds the second callback's handle, a different handle
from the one the first successful resolution stored. -/
theorem c9_client_counterexample :
    (getClientBurst none
        [AuthOutcome.success { id := 1 }, AuthOutcome.success { id := 2 }]).1
      = [(Except.ok { id := 1 }, true), (Except.ok { id := 2 }, true)]
    ∧ (getClientBurst none
        [AuthOutcome.success { id := 1 }, AuthOutcome.success { id := 2 }]).2
      = some { id := 2 }
    ∧ ({ id := 2 } : Client) ≠ ({ id := 1 } : Client) :=
  ⟨rfl, rfl, by decide⟩

/-- C9 (amended): once the module slot holds a handle, every later getClient
call — in any burst pattern — resolves that identical cached handle without
invoking the authentication collaborator, and the slot is never changed
thereafter; but calls that start while the slot is still empty each invoke
authentication even when they overlap in one tick, and every successful
callback stores its own new handle with the last one winning, so the handle
can be created several times and replaced; at-most-one creation holds only
for non-overlapping traces, where each call settles before the next begins. -/
theorem c9_client_lazy_init (c : Client) (bursts : List (List AuthOutcome))
    (auths : List AuthOutcome) (c2 : Client) :
    runBursts (some c) bursts
      = (bursts.map (fun b => b.map (fun _ => (Except.ok c, false))), some c)
    ∧ (getClientBurst none auths).1.countP (fun p => p.2) = auths.length
    ∧ (getClientBurst none (auths ++ [AuthOutcome.success c2])).2 = some c2
    ∧ ((runBursts none (auths.map (fun a => [a]))).1.flatten.countP
        (fun p => p.2 && (match p.1 with | .ok _ => true | .error _ => false))) ≤ 1 :=
  ⟨runBursts_cached c bursts, getClientBurst_none_invokes_all auths,
   getClientBurst_last_success auths c2, runBursts_sequential_le_one auths⟩

/-- C10: a request whose body lacks the repository field, or lacks
repository.owner, makes the handler dereference the missing object before any
validation runs and throw synchronously, sending no HTTP response at all. -/
theorem c10_missing_repository_crash (w : World) (cfg : Config) (req : Request)
    (h : req.body.repository = none ∨
      ∃ ro, req.body.repository = some ro ∧ ro.owner = none) :
    githubAutoDeployer w cfg req = (.crash, ⟨false, false, false, false, false⟩) := by
  rcases h with h | ⟨ro, hro, hown⟩
  · simp [githubAutoDeployer, h]
  · simp [githubAutoDeployer, hro, hown]

/-- C10 witness: a concrete request with no repository field crashes the
handler with no response and no stage invoked. -/
theorem c10_missing_repository_crash_witness :
    githubAutoDeployer sampleWorldOk sampleConfig noRepoRequest =
      (.crash, ⟨false, false, false, false, false⟩) :=
  c10_missing_repository_crash sampleWorldOk sampleConfig noRepoRequest (Or.inl rfl)

end AutoDeployer
